import Mathlib

/-!
Shallow embedding of the clustered crawl scheduler in `src/crawler/index.ts`
(the clustering variant of the module: `crawlWebsites`, `crawlWithClustering`,
`groupUrlsByClusters`, `mergeSmallClusters`, `getClusterSpecificDelay`,
`crawlWebsite`, `generateCleanMarkdown`).

Modelling conventions:
- JavaScript objects used as string-keyed maps (`Record<string, string[]>`)
  are embedded as association lists in key insertion order; `Object.entries`
  iterates string keys in insertion order, which the list order mirrors.
- External platform effects (WHATWG `new URL(u).hostname`, `puppeteer.launch`,
  page navigation/extraction, the OpenRouter HTTP call, `Date`) are supplied
  by a deterministic environment `Env`; `Option`/`Bool` fields encode whether
  the corresponding awaited call succeeds or throws.
- Fallible code is embedded with `Option`/`Except`; a JS `catch` corresponds
  to a `match` on the error case.
- `Array.prototype.sort` is stable (ES2019), so the comparator sort in
  `mergeSmallClusters` is embedded with a stable insertion sort.
- `Array.prototype.slice` with possibly negative indices is embedded by
  `jsSlice`/`jsSliceFrom`, clamping exactly as the ECMAScript spec does.
-/

/-- `SearchResult` from `src/search/index.ts` as consumed by the crawler
(only `url` is read by the crawler core). -/
structure SearchResult where
  url : String
  title : String
  description : String
deriving Repr, DecidableEq

/-- `CrawlResult` interface (src/crawler/index.ts, clustering variant):
url, title, content, html, markdown, timestamp, optional cluster tag. -/
structure CrawlResult where
  url : String
  title : String
  content : String
  html : String
  markdown : String
  timestamp : String
  cluster : Option String
deriving Repr, DecidableEq

/-- Modelled from the spec: `QueryOptions` is declared in `src/query/index.ts`,
which is not part of the provided sources; §6 of the spec lists the exposed
option fields `{depth, timeout, concurrency, clusterBy, maxClusters, verbose}`.
Numeric fields are `Option Nat` (`none` = `undefined`); the crawler reads them
through JavaScript `x || default`, which also replaces `0` by the default. -/
structure QueryOptions where
  depth : Option Nat
  timeout : Option Nat
  concurrency : Option Nat
  clusterBy : Option String
  maxClusters : Option Nat
  verbose : Bool
deriving Repr, DecidableEq

/-- `ClusterConfig` interface: enabled, maxClusters, clusterBy, customClusterFn.
`maxClusters` is a JS number, kept as `Int` so that `slice(maxClusters - 1)`
behaves as in JS even for non-positive values. -/
inductive ClusterBy
  | domain
  | tld
  | custom
deriving Repr, DecidableEq

structure ClusterConfig where
  enabled : Bool
  maxClusters : Int
  clusterBy : ClusterBy
  customClusterFn : Option (String → String)

/-- `OpenRouterConfig`: apiKey and model read from the environment. -/
structure OpenRouterConfig where
  apiKey : String
  model : String

/-- Outcome of the per-page browser interactions of one `crawlWebsite` call.
`navOk`/`selOk`/`screenshotOk` record whether `page.goto`, `waitForSelector`
and `page.screenshot` succeed; all three are caught and only logged by the
source, so they do not influence the produced result. `none` in an `Option`
field means the corresponding awaited call throws. -/
structure PageOutcome where
  newPageOk : Bool
  setUserAgentOk : Bool
  navOk : Bool
  selOk : Bool
  titleResult : Option String
  contentResult : Option String
  htmlResult : Option String
  screenshotOk : Bool
  timestamp : String

/-- Deterministic environment supplying every external effect of the module:
URL parsing, `os.cpus().length`, per-cluster `puppeteer.launch` success,
per-page outcomes (as a function of the url and the navigation timeout),
the OpenRouter configuration and the OpenRouter chat-completion call
(as a function of title, url and truncated content). -/
structure Env where
  host : String → Option String
  cpuCount : Nat
  launchOk : String → Bool
  page : String → Nat → PageOutcome
  openRouter : OpenRouterConfig
  api : String → String → String → Option String

/-- JavaScript `x || d` on an optional numeric option: `undefined` and `0`
are falsy and replaced by the default. -/
def orDefault (x : Option Nat) (d : Nat) : Nat :=
  match x with
  | none => d
  | some 0 => d
  | some (Nat.succ n) => Nat.succ n

/-- `options.depth || 3` (crawlWebsites). -/
def effDepth (o : QueryOptions) : Nat := orDefault o.depth 3

/-- `(options.timeout || 30) * 1000` (crawlWebsite). -/
def effTimeout (o : QueryOptions) : Nat := (orDefault o.timeout 30) * 1000

/-- `options.concurrency || 3` (crawlWithClustering). -/
def effConcurrency (o : QueryOptions) : Nat := orDefault o.concurrency 3

theorem effConcurrency_pos (o : QueryOptions) : 1 ≤ effConcurrency o := by
  unfold effConcurrency orDefault
  cases h : o.concurrency with
  | none => simp
  | some n => cases n <;> simp

/-- A `Record<string, string[]>` in key insertion order. -/
abbrev ClusterMap := List (String × List String)

/-- Keys of the record, in insertion order (`Object.keys`). -/
def clusterKeys (m : ClusterMap) : List String := m.map (fun p => p.1)

/-- All stored urls in iteration order (concatenation of the member lists). -/
def allUrls (m : ClusterMap) : List String := m.flatMap (fun p => p.2)

/-- `if (!clusters[k]) clusters[k] = []; clusters[k].push(u)`:
append `u` to the bucket of `k`, creating the bucket at the end on first use. -/
def insertUrl (m : ClusterMap) (k u : String) : ClusterMap :=
  match m with
  | [] => [(k, [u])]
  | (k', us) :: rest =>
    if k' = k then (k', us ++ [u]) :: rest else (k', us) :: insertUrl rest k u

/-- `m[k] = v` on a JS object: overwrite in place if the key exists
(keeping its insertion position), otherwise append the key. -/
def setKey (m : ClusterMap) (k : String) (v : List String) : ClusterMap :=
  match m with
  | [] => [(k, v)]
  | (k', v') :: rest =>
    if k' = k then (k, v) :: rest else (k', v') :: setKey rest k v

/-- The comparator `(a, b) => b[1].length - a[1].length` orders `a` before `b`
when `b`'s member list is no longer than `a`'s. -/
def clusterGe (a b : String × List String) : Prop := b.2.length ≤ a.2.length

instance : DecidableRel clusterGe := fun a b => Nat.decLe b.2.length a.2.length

instance : IsTotal (String × List String) clusterGe :=
  ⟨fun a b => Nat.le_total b.2.length a.2.length⟩

instance : IsTrans (String × List String) clusterGe :=
  ⟨fun _ _ _ h h' => Nat.le_trans h' h⟩

/-- `Object.entries(clusters).sort((a, b) => b[1].length - a[1].length)`:
a stable sort, descending by member count, embedded with insertion sort
(stable sorts agree on consistent comparators). -/
def sortClustersDesc (m : ClusterMap) : ClusterMap := List.insertionSort clusterGe m

/-- ECMAScript index clamping for `Array.prototype.slice`:
negative indices count from the end, then clamp into `[0, len]`. -/
def normIdx (i : Int) (len : Nat) : Nat :=
  if i < 0 then ((len : Int) + i).toNat else min i.toNat len

/-- `l.slice(s, e)`. -/
def jsSlice (l : List α) (s e : Int) : List α :=
  (l.drop (normIdx s l.length)).take (normIdx e l.length - normIdx s l.length)

/-- `l.slice(s)` (end defaults to the length). -/
def jsSliceFrom (l : List α) (s : Int) : List α :=
  l.drop (normIdx s l.length)

/-- `mergeSmallClusters` (src/crawler/index.ts lines 549-581): sort clusters
descending by size, keep the largest `maxClusters - 1`, merge the rest into
one bucket stored under the key `"merged-small-clusters"`. -/
def mergeSmallClusters (clusters : ClusterMap) (maxClusters : Int) : ClusterMap :=
  if (clusters.length : Int) ≤ maxClusters then clusters
  else
    let sortedClusters := sortClustersDesc clusters
    let largestClusters := jsSlice sortedClusters 0 (maxClusters - 1)
    let smallClusters := jsSliceFrom sortedClusters (maxClusters - 1)
    let result := largestClusters.foldl (fun m p => setKey m p.1 p.2) []
    let mergedUrls := smallClusters.flatMap (fun p => p.2)
    if mergedUrls.length > 0 then setKey result ("merged-small-clusters") mergedUrls
    else result

/-- Key derivation of `groupUrlsByClusters`: hostname for `domain`, last
dot-separated hostname segment for `tld` (full hostname when there is no dot),
the custom function for `custom` (or `"default"` when it is missing);
a url the platform cannot parse goes to `"invalid-urls"`. -/
def clusterNameOf (host : String → Option String) (cfg : ClusterConfig) (url : String) : String :=
  match host url with
  | none => "invalid-urls"
  | some h =>
    match cfg.clusterBy with
    | ClusterBy.domain => h
    | ClusterBy.tld =>
      let domainParts := h.splitOn (".")
      if domainParts.length > 1 then domainParts.getLastD h else h
    | ClusterBy.custom =>
      match cfg.customClusterFn with
      | some f => f url
      | none => "default"

/-- The grouping loop of `groupUrlsByClusters` before overflow control. -/
def rawClusters (host : String → Option String) (searchResults : List SearchResult)
    (cfg : ClusterConfig) : ClusterMap :=
  searchResults.foldl (fun m r => insertUrl m (clusterNameOf host cfg r.url) r.url) []

/-- `groupUrlsByClusters` (src/crawler/index.ts lines 486-540). -/
def groupUrlsByClusters (host : String → Option String) (searchResults : List SearchResult)
    (cfg : ClusterConfig) : ClusterMap :=
  let clusters := rawClusters host searchResults cfg
  if (clusters.length : Int) > cfg.maxClusters then mergeSmallClusters clusters cfg.maxClusters
  else clusters

/-- `String.prototype.includes` on the underlying character lists. -/
def containsSub (s pat : List Char) : Bool :=
  match s with
  | [] => pat.isPrefixOf ([] : List Char)
  | c :: t => pat.isPrefixOf (c :: t) || containsSub t pat

/-- The hardcoded strict-rate-limit origin list of `getClusterSpecificDelay`. -/
def strictDomains : List String :=
  ["wikipedia.org", "amazon.com", "linkedin.com", "facebook.com", "twitter.com"]

/-- `getClusterSpecificDelay` (src/crawler/index.ts lines 590-611): 5000 ms
when the cluster name contains a strict domain as a substring, else 2000 ms. -/
def getClusterSpecificDelay (clusterName : String) : Nat :=
  let delay := 2000
  if strictDomains.any (fun d => containsSub clusterName.data d.data) then 5000
  else delay

/-- `content.substring(0, 8000) + '...'` when the content exceeds the cap. -/
def truncateContent (content : String) : String :=
  if content.length > 8000 then content.take 8000 ++ "..." else content

/-- `generateCleanMarkdown` (src/crawler/index.ts lines 763-831): throws when
the API key is empty; otherwise calls OpenRouter on (title, url, truncated
content) and returns the trimmed message, throwing on call failure or an
unexpected response shape (both covered by the oracle returning `none`). -/
def generateCleanMarkdown (cfg : OpenRouterConfig) (api : String → String → String → Option String)
    (content title url : String) : Except Unit String :=
  if cfg.apiKey = "" then Except.error ()
  else
    match api title url (truncateContent content) with
    | some md => Except.ok md.trim
    | none => Except.error ()

/-- The page outcome of one fetch: the navigation timeout passed to the page
is `(options.timeout || 30) * 1000`. -/
def pageOut (env : Env) (opts : QueryOptions) (url : String) : PageOutcome :=
  env.page url (effTimeout opts)

/-- Title step of `crawlWebsite`: `page.title()` with fallback
`new URL(url).hostname`; `none` means the fallback itself threw
(unparseable url), which escapes to the outer catch. -/
def titleOf (env : Env) (opts : QueryOptions) (url : String) : Option String :=
  match (pageOut env opts url).titleResult with
  | some t => some t
  | none => env.host url

/-- Content step: `page.evaluate` extraction with the literal failure
placeholder of the source. -/
def contentOf (env : Env) (opts : QueryOptions) (url : String) : String :=
  match (pageOut env opts url).contentResult with
  | some c => c
  | none =>
    "Failed to extract content from " ++ url ++
      ". The page might be using advanced JavaScript or have anti-scraping measures."

/-- HTML step: `page.content()` with the literal placeholder document. -/
def htmlOf (env : Env) (opts : QueryOptions) (url : String) : String :=
  match (pageOut env opts url).htmlResult with
  | some h => h
  | none => "<html><body><p>Failed to extract HTML from " ++ url ++ "</p></body></html>"

/-- Markdown step: `generateCleanMarkdown` with the literal fallback template
of the catch block. -/
def markdownOf (env : Env) (opts : QueryOptions) (url title : String) : String :=
  match generateCleanMarkdown env.openRouter env.api (contentOf env opts url) title url with
  | Except.ok md => md
  | Except.error _ => "# " ++ title ++ "\n\n" ++ contentOf env opts url ++ "\n\n[Source](" ++ url ++ ")"

/-- `crawlWebsite` (src/crawler/index.ts lines 633-753) together with its
page-handle effect: result, pages opened, pages closed. `isAllowedByRobotsTxt`
always returns true in the source. A `newPage` failure creates no handle;
any later throw not caught by an inner catch reaches the outer catch, which
returns null. The `finally` block is empty (`page.close()` is commented out),
so no page is ever closed. -/
def crawlWebsiteFull (env : Env) (opts : QueryOptions) (url : String) :
    Option CrawlResult × Nat × Nat :=
  let o := pageOut env opts url
  if o.newPageOk = false then (none, 0, 0)
  else if o.setUserAgentOk = false then (none, 1, 0)
  else
    match titleOf env opts url with
    | none => (none, 1, 0)
    | some title =>
      (some { url := url, title := title, content := contentOf env opts url,
              html := htmlOf env opts url, markdown := markdownOf env opts url title,
              timestamp := o.timestamp, cluster := none }, 1, 0)

/-- The result component of `crawlWebsite`. -/
def crawlWebsite (env : Env) (opts : QueryOptions) (url : String) : Option CrawlResult :=
  (crawlWebsiteFull env opts url).1

/-- One batch member task of `crawlWithClustering`:
`const result = await crawlWebsite(url, options, browser); if (result) result.cluster = clusterName; return result`. -/
def fetchOne (env : Env) (opts : QueryOptions) (clusterName url : String) : Option CrawlResult :=
  (crawlWebsite env opts url).map (fun r => { r with cluster := some clusterName })

/-- `batch.map(async (url) => ...)` + `Promise.all`: index-aligned outcomes. -/
def processBatch (env : Env) (opts : QueryOptions) (clusterName : String)
    (batch : List String) : List (Option CrawlResult) :=
  batch.map (fetchOne env opts clusterName)

/-- Events of one cluster task, for the rate-limit and ordering claims. -/
inductive ClusterEvent
  | batch (urls : List String)
  | delay (ms : Nat)
deriving Repr, DecidableEq

/-- The batch loop of one cluster task (src/crawler/index.ts lines 438-464):
take `concurrency` urls, fetch them concurrently, push the non-null results
in input order, sleep `getClusterSpecificDelay(clusterName)` when more urls
remain, repeat. Returns the accumulated results and the event trace.
The `fuel` argument is only a termination device: `clusterLoop` starts it at
the length of the url list and, because every iteration consumes at least one
url (`concurrency ≥ 1`), the exhausted-fuel branch is unreachable. -/
def clusterLoopAux (env : Env) (opts : QueryOptions) (clusterName : String) :
    Nat → List String → List CrawlResult × List ClusterEvent
  | _, [] => ([], [])
  | 0, _ :: _ => ([], [])
  | Nat.succ fuel, u :: us =>
    let conc := effConcurrency opts
    let batch := (u :: us).take conc
    let batchResults := processBatch env opts clusterName batch
    let rest := (u :: us).drop conc
    let next := clusterLoopAux env opts clusterName fuel rest
    (batchResults.filterMap id ++ next.1,
     ClusterEvent.batch batch ::
       (if rest.isEmpty then next.2
        else ClusterEvent.delay (getClusterSpecificDelay clusterName) :: next.2))

def clusterLoop (env : Env) (opts : QueryOptions) (clusterName : String)
    (urls : List String) : List CrawlResult × List ClusterEvent :=
  clusterLoopAux env opts clusterName urls.length urls

/-- One cluster task: `puppeteer.launch` then the batch loop, the browser
closed in `finally`. A launch rejection makes the task's promise reject. -/
def clusterTask (env : Env) (opts : QueryOptions) (entry : String × List String) :
    Except Unit (List CrawlResult) :=
  if env.launchOk entry.1 then Except.ok (clusterLoop env opts entry.1 entry.2).1
  else Except.error ()

/-- `Promise.all`: resolves to the list of values in input order, or rejects
as soon as any member rejects. -/
def sequenceExcept : List (Except Unit α) → Except Unit (List α)
  | [] => Except.ok []
  | x :: t =>
    match x with
    | Except.error e => Except.error e
    | Except.ok a =>
      match sequenceExcept t with
      | Except.error e => Except.error e
      | Except.ok as => Except.ok (a :: as)

/-- `crawlWithClustering` (src/crawler/index.ts lines 405-477): group, run one
task per cluster, await all, flatten. The result is an `Except` because a
cluster-task rejection propagates out of the (uncaught) `Promise.all`. -/
def crawlWithClustering (env : Env) (searchResults : List SearchResult)
    (opts : QueryOptions) (clusterConfig : ClusterConfig) : Except Unit (List CrawlResult) :=
  let clusters := groupUrlsByClusters env.host searchResults clusterConfig
  match sequenceExcept (clusters.map (clusterTask env opts)) with
  | Except.ok clusterResults => Except.ok clusterResults.flatten
  | Except.error e => Except.error e

/-- The hardcoded cluster configuration of `crawlWebsites`:
`{enabled: true, maxClusters: Math.min(os.cpus().length, 4), clusterBy: 'domain'}`. -/
def defaultClusterConfig (env : Env) : ClusterConfig :=
  { enabled := true, maxClusters := (min env.cpuCount 4 : Nat), clusterBy := ClusterBy.domain,
    customClusterFn := none }

/-- `crawlWebsites` (src/crawler/index.ts lines 362-395): truncate to `depth`,
always crawl with the hardcoded clustering configuration, and return `[]`
from the surrounding catch when anything rejects. -/
def crawlWebsites (env : Env) (searchResults : List SearchResult) (opts : QueryOptions) :
    List CrawlResult :=
  let maxWebsites := min searchResults.length (effDepth opts)
  let limitedResults := searchResults.take maxWebsites
  match crawlWithClustering env limitedResults opts (defaultClusterConfig env) with
  | Except.ok results => results
  | Except.error _ => []

/-- The batches the loop of `clusterLoop` iterates over: chunks of size `c`
(`c ≥ 1` for every reachable concurrency value); the fuel device is as in
`clusterLoopAux`. -/
def chunkListAux (c : Nat) : Nat → List String → List (List String)
  | _, [] => []
  | 0, _ :: _ => []
  | Nat.succ fuel, u :: us => (u :: us).take c :: chunkListAux c fuel ((u :: us).drop c)

def chunkList (c : Nat) (l : List String) : List (List String) := chunkListAux c l.length l

/-- The expected event trace of one cluster task: its batches in order with
one delay between consecutive batches and none after the last. -/
def expectedTrace (d : Nat) : List (List String) → List ClusterEvent
  | [] => []
  | [b] => [ClusterEvent.batch b]
  | b :: b' :: rest => ClusterEvent.batch b :: ClusterEvent.delay d :: expectedTrace d (b' :: rest)

/-! ### Partition lemmas -/

theorem allUrls_insertUrl (m : ClusterMap) (k u : String) :
    (allUrls (insertUrl m k u)).Perm (u :: allUrls m) := by
  induction m with
  | nil => simp [allUrls, insertUrl]
  | cons p rest ih =>
    obtain ⟨k', us⟩ := p
    simp only [allUrls] at ih ⊢
    by_cases h : k' = k
    · simp only [insertUrl, if_pos h, List.flatMap_cons, List.append_assoc,
        List.singleton_append]
      exact List.perm_middle
    · simp only [insertUrl, if_neg h, List.flatMap_cons]
      exact (ih.append_left us).trans List.perm_middle

theorem allUrls_foldl_insertUrl (host : String → Option String) (cfg : ClusterConfig) :
    ∀ (rs : List SearchResult) (m : ClusterMap),
      (allUrls (rs.foldl (fun m r => insertUrl m (clusterNameOf host cfg r.url) r.url) m)).Perm
        (allUrls m ++ rs.map (fun r => r.url))
  | [], m => by simp
  | r :: rs, m => by
    simp only [List.foldl_cons, List.map_cons]
    have h1 := allUrls_foldl_insertUrl host cfg rs
      (insertUrl m (clusterNameOf host cfg r.url) r.url)
    have h2 := (allUrls_insertUrl m (clusterNameOf host cfg r.url) r.url).append_right
      (rs.map (fun r => r.url))
    exact h1.trans (h2.trans List.perm_middle.symm)

theorem allUrls_rawClusters (host : String → Option String) (rs : List SearchResult)
    (cfg : ClusterConfig) :
    (allUrls (rawClusters host rs cfg)).Perm (rs.map (fun r => r.url)) := by
  have h := allUrls_foldl_insertUrl host cfg rs []
  simpa [rawClusters, allUrls] using h

theorem mem_clusterKeys_insertUrl {m : ClusterMap} {k u a : String} :
    a ∈ clusterKeys (insertUrl m k u) ↔ a ∈ clusterKeys m ∨ a = k := by
  induction m with
  | nil => simp [insertUrl, clusterKeys]
  | cons p rest ih =>
    obtain ⟨k', us⟩ := p
    by_cases h : k' = k
    · subst h
      simp [insertUrl, clusterKeys, List.mem_cons]
      tauto
    · simp only [insertUrl, if_neg h, clusterKeys, List.map_cons, List.mem_cons] at ih ⊢
      rw [ih]
      tauto

theorem nodup_clusterKeys_insertUrl (k u : String) :
    ∀ m : ClusterMap, (clusterKeys m).Nodup → (clusterKeys (insertUrl m k u)).Nodup := by
  intro m
  induction m with
  | nil => intro _; simp [insertUrl, clusterKeys]
  | cons p rest ih =>
    intro h
    obtain ⟨k', us⟩ := p
    simp only [clusterKeys, List.map_cons, List.nodup_cons] at h
    by_cases hk : k' = k
    · simp only [insertUrl, if_pos hk, clusterKeys, List.map_cons, List.nodup_cons]
      exact ⟨h.1, h.2⟩
    · simp only [insertUrl, if_neg hk, clusterKeys, List.map_cons, List.nodup_cons]
      refine ⟨?_, ih h.2⟩
      intro hmem
      rcases mem_clusterKeys_insertUrl.mp hmem with hin | hin
      · exact h.1 hin
      · exact hk hin

theorem nodup_clusterKeys_foldl (host : String → Option String) (cfg : ClusterConfig) :
    ∀ (rs : List SearchResult) (m : ClusterMap), (clusterKeys m).Nodup →
      (clusterKeys (rs.foldl (fun m r =>
        insertUrl m (clusterNameOf host cfg r.url) r.url) m)).Nodup
  | [], _, h => h
  | r :: rs, m, h =>
    nodup_clusterKeys_foldl host cfg rs _ (nodup_clusterKeys_insertUrl _ _ m h)

theorem nodup_clusterKeys_rawClusters (host : String → Option String)
    (rs : List SearchResult) (cfg : ClusterConfig) :
    (clusterKeys (rawClusters host rs cfg)).Nodup :=
  nodup_clusterKeys_foldl host cfg rs [] (by simp [clusterKeys])

theorem not_mem_clusterKeys_foldl (host : String → Option String) (cfg : ClusterConfig)
    (k₀ : String) :
    ∀ (rs : List SearchResult) (m : ClusterMap), k₀ ∉ clusterKeys m →
      (∀ r ∈ rs, clusterNameOf host cfg r.url ≠ k₀) →
      k₀ ∉ clusterKeys (rs.foldl (fun m r =>
        insertUrl m (clusterNameOf host cfg r.url) r.url) m)
  | [], _, h, _ => h
  | r :: rs, m, h, hall => by
    refine not_mem_clusterKeys_foldl host cfg k₀ rs _ ?_ ?_
    · intro hmem
      rcases mem_clusterKeys_insertUrl.mp hmem with hin | hin
      · exact h hin
      · exact hall r (List.mem_cons_self r rs) hin.symm
    · exact fun r' hr' => hall r' (List.mem_cons_of_mem r hr')

theorem not_mem_clusterKeys_rawClusters (host : String → Option String)
    (rs : List SearchResult) (cfg : ClusterConfig) (k₀ : String)
    (hall : ∀ r ∈ rs, clusterNameOf host cfg r.url ≠ k₀) :
    k₀ ∉ clusterKeys (rawClusters host rs cfg) :=
  not_mem_clusterKeys_foldl host cfg k₀ rs [] (by simp [clusterKeys]) hall

theorem sortClustersDesc_perm (m : ClusterMap) : (sortClustersDesc m).Perm m :=
  List.perm_insertionSort clusterGe m

theorem allUrls_sortClustersDesc (m : ClusterMap) :
    (allUrls (sortClustersDesc m)).Perm (allUrls m) := by
  have h := ((sortClustersDesc_perm m).map (fun p => p.2)).flatten
  simpa [allUrls, List.flatMap_def] using h

theorem jsSlice_zero_eq_take (l : List α) (e : Int) :
    jsSlice l 0 e = l.take (normIdx e l.length) := by
  simp [jsSlice, normIdx]

theorem jsSliceFrom_eq_drop (l : List α) (s : Int) :
    jsSliceFrom l s = l.drop (normIdx s l.length) := rfl

theorem setKey_of_not_mem (k : String) (v : List String) :
    ∀ m : ClusterMap, k ∉ clusterKeys m → setKey m k v = m ++ [(k, v)]
  | [], _ => rfl
  | (k', v') :: rest, h => by
    simp only [clusterKeys, List.map_cons, List.mem_cons] at h
    push_neg at h
    have hne : ¬ (k' = k) := fun hh => h.1 hh.symm
    simp only [setKey, if_neg hne, List.cons_append]
    rw [setKey_of_not_mem k v rest (by simpa [clusterKeys] using h.2)]

theorem foldl_setKey_eq_append :
    ∀ (l : List (String × List String)) (acc : ClusterMap),
      (∀ p ∈ l, p.1 ∉ clusterKeys acc) → (clusterKeys l).Nodup →
      l.foldl (fun m p => setKey m p.1 p.2) acc = acc ++ l
  | [], acc, _, _ => by simp
  | (k, v) :: t, acc, hmem, hnd => by
    simp only [List.foldl_cons]
    have h1 : k ∉ clusterKeys acc := hmem (k, v) (List.mem_cons_self _ _)
    rw [setKey_of_not_mem k v acc h1]
    simp only [clusterKeys, List.map_cons, List.nodup_cons] at hnd
    have h2 : ∀ p ∈ t, p.1 ∉ clusterKeys (acc ++ [(k, v)]) := by
      intro p hp
      simp only [clusterKeys, List.map_append, List.mem_append, List.map_cons,
        List.map_nil, List.mem_cons, List.not_mem_nil, or_false]
      rintro (hin | hin)
      · exact hmem p (List.mem_cons_of_mem _ hp) hin
      · exact hnd.1 (hin ▸ List.mem_map_of_mem (fun p => p.1) hp)
    have h3 := foldl_setKey_eq_append t (acc ++ [(k, v)]) h2 hnd.2
    rw [h3]
    simp

theorem take_min_length (l : List α) (a : Nat) : l.take (min a l.length) = l.take a := by
  rcases Nat.le_total a l.length with h | h
  · rw [Nat.min_eq_left h]
  · rw [Nat.min_eq_right h, List.take_of_length_le h, List.take_of_length_le (Nat.le_refl _)]

theorem drop_min_length (l : List α) (a : Nat) : l.drop (min a l.length) = l.drop a := by
  rcases Nat.le_total a l.length with h | h
  · rw [Nat.min_eq_left h]
  · rw [Nat.min_eq_right h, List.drop_eq_nil_of_le h, List.drop_eq_nil_of_le (Nat.le_refl _)]

/-- Shape of an overflowing merge, given distinct keys and no collision with
the sentinel bucket name among the kept clusters. -/
theorem mergeSmallClusters_eq_of_gt (m : ClusterMap) (maxC : Int)
    (hgt : ¬ (m.length : Int) ≤ maxC)
    (hndT : (clusterKeys ((sortClustersDesc m).take
      (normIdx (maxC - 1) (sortClustersDesc m).length))).Nodup)
    (hmscT : "merged-small-clusters" ∉ clusterKeys ((sortClustersDesc m).take
      (normIdx (maxC - 1) (sortClustersDesc m).length))) :
    mergeSmallClusters m maxC =
      (let n := normIdx (maxC - 1) (sortClustersDesc m).length
       let merged := ((sortClustersDesc m).drop n).flatMap (fun p => p.2)
       if merged.length > 0 then
         (sortClustersDesc m).take n ++ [("merged-small-clusters", merged)]
       else (sortClustersDesc m).take n) := by
  simp only [mergeSmallClusters, if_neg hgt]
  rw [jsSlice_zero_eq_take, jsSliceFrom_eq_drop]
  rw [foldl_setKey_eq_append _ [] (by simp [clusterKeys]) hndT]
  simp only [List.nil_append]
  split
  · rw [setKey_of_not_mem _ _ _ hmscT]
  · rfl

theorem allUrls_mergeSmallClusters (m : ClusterMap) (maxC : Int)
    (hnd : (clusterKeys m).Nodup)
    (hmsc : "merged-small-clusters" ∉ clusterKeys m) :
    (allUrls (mergeSmallClusters m maxC)).Perm (allUrls m) := by
  by_cases hle : (m.length : Int) ≤ maxC
  · simp [mergeSmallClusters, hle]
  · have hkperm : (clusterKeys (sortClustersDesc m)).Perm (clusterKeys m) :=
      (sortClustersDesc_perm m).map _
    have hndS : (clusterKeys (sortClustersDesc m)).Nodup := hkperm.nodup_iff.mpr hnd
    have hmscS : "merged-small-clusters" ∉ clusterKeys (sortClustersDesc m) :=
      fun hm => hmsc (hkperm.mem_iff.mp hm)
    have hkeystake : clusterKeys ((sortClustersDesc m).take
        (normIdx (maxC - 1) (sortClustersDesc m).length)) =
        (clusterKeys (sortClustersDesc m)).take
          (normIdx (maxC - 1) (sortClustersDesc m).length) := by
      simp [clusterKeys, List.map_take]
    have hndT : (clusterKeys ((sortClustersDesc m).take
        (normIdx (maxC - 1) (sortClustersDesc m).length))).Nodup := by
      rw [hkeystake]
      exact hndS.sublist (List.take_sublist _ _)
    have hmscT : "merged-small-clusters" ∉ clusterKeys ((sortClustersDesc m).take
        (normIdx (maxC - 1) (sortClustersDesc m).length)) := by
      rw [hkeystake]
      intro hm
      exact hmscS (List.take_subset _ _ hm)
    rw [mergeSmallClusters_eq_of_gt m maxC hle hndT hmscT]
    simp only []
    refine List.Perm.trans ?_ (allUrls_sortClustersDesc m)
    have hsplit : allUrls ((sortClustersDesc m).take
          (normIdx (maxC - 1) (sortClustersDesc m).length)) ++
        ((sortClustersDesc m).drop
          (normIdx (maxC - 1) (sortClustersDesc m).length)).flatMap (fun p => p.2) =
        allUrls (sortClustersDesc m) := by
      simp only [allUrls, ← List.flatMap_append, List.take_append_drop]
    split
    · rename_i hpos
      have : allUrls ((sortClustersDesc m).take
            (normIdx (maxC - 1) (sortClustersDesc m).length) ++
            [("merged-small-clusters",
              ((sortClustersDesc m).drop
                (normIdx (maxC - 1) (sortClustersDesc m).length)).flatMap (fun p => p.2))]) =
          allUrls ((sortClustersDesc m).take
            (normIdx (maxC - 1) (sortClustersDesc m).length)) ++
          ((sortClustersDesc m).drop
            (normIdx (maxC - 1) (sortClustersDesc m).length)).flatMap (fun p => p.2) := by
        simp [allUrls, List.flatMap_append]
      rw [this, hsplit]
    · rename_i hzero
      have hnil : ((sortClustersDesc m).drop
          (normIdx (maxC - 1) (sortClustersDesc m).length)).flatMap (fun p => p.2) = [] := by
        have := Nat.eq_zero_of_not_pos hzero
        exact List.eq_nil_of_length_eq_zero this
      rw [← hsplit, hnil, List.append_nil]

/-- C1 (amended): for every input list, platform url parser and cluster
configuration in which no derived cluster key equals the sentinel
`"merged-small-clusters"`, the urls stored in the partition are exactly the
input urls as a multiset (no loss, no duplication). -/
theorem groupUrlsByClusters_partition_complete (host : String → Option String)
    (rs : List SearchResult) (cfg : ClusterConfig)
    (hmsc : ∀ r ∈ rs, clusterNameOf host cfg r.url ≠ "merged-small-clusters") :
    (allUrls (groupUrlsByClusters host rs cfg)).Perm (rs.map (fun r => r.url)) := by
  simp only [groupUrlsByClusters]
  split
  · exact (allUrls_mergeSmallClusters _ _ (nodup_clusterKeys_rawClusters host rs cfg)
      (not_mem_clusterKeys_rawClusters host rs cfg _ hmsc)).trans
      (allUrls_rawClusters host rs cfg)
  · exact allUrls_rawClusters host rs cfg

/-- A platform url parser for tests that accepts every url and uses the url
itself as its hostname. -/
def hostSelf : String → Option String := fun u => some u

def cfgDomain2 : ClusterConfig :=
  { enabled := true, maxClusters := 2, clusterBy := ClusterBy.domain,
    customClusterFn := none }

def rsW1 : List SearchResult :=
  [⟨"x", "", ""⟩, ⟨"y", "", ""⟩, ⟨"z", "", ""⟩, ⟨"x", "", ""⟩]

theorem groupUrlsByClusters_partition_complete_witness :
    (allUrls (groupUrlsByClusters hostSelf rsW1 cfgDomain2)).Perm
      (rsW1.map (fun r => r.url)) :=
  groupUrlsByClusters_partition_complete hostSelf rsW1 cfgDomain2 (by decide)

/-- A parser oracle under which every url parses (hostname not used by the
custom cluster function below). -/
def hostAlways : String → Option String := fun _ => some ("host")

/-- A custom clustering function that can return the sentinel bucket name. -/
def cfgCollide : ClusterConfig :=
  { enabled := true, maxClusters := 2, clusterBy := ClusterBy.custom,
    customClusterFn :=
      some (fun u => if u = "a" ∨ u = "b" then u else ("merged-small-clusters")) }

def rsCollide : List SearchResult :=
  [⟨"m1", "", ""⟩, ⟨"m2", "", ""⟩, ⟨"a", "", ""⟩, ⟨"b", "", ""⟩]

/-- C1 counterexample: with a custom cluster function returning the sentinel
key `"merged-small-clusters"`, the merged bucket overwrites the kept cluster
of that name and the urls `"m1"`, `"m2"` are dropped from the partition. -/
theorem groupUrlsByClusters_partition_counterexample :
    ¬ (allUrls (groupUrlsByClusters hostAlways rsCollide cfgCollide)).Perm
      (rsCollide.map (fun r => r.url)) := by decide

/-! ### Sort stability -/

theorem filter_orderedInsert_of_sorted (c : Nat) (a : String × List String) :
    ∀ s : ClusterMap, List.Sorted clusterGe s →
      (List.orderedInsert clusterGe a s).filter (fun p => p.2.length == c) =
        if a.2.length = c then a :: s.filter (fun p => p.2.length == c)
        else s.filter (fun p => p.2.length == c) := by
  intro s
  induction s with
  | nil =>
    intro _
    by_cases h : a.2.length = c <;> simp [List.orderedInsert, h]
  | cons b t ih =>
    intro hs
    by_cases hab : clusterGe a b
    · rw [List.orderedInsert_of_le clusterGe t hab]
      by_cases h : a.2.length = c <;> simp [List.filter_cons, h]
    · have horder : List.orderedInsert clusterGe a (b :: t) =
          b :: List.orderedInsert clusterGe a t := by
        simp [List.orderedInsert, hab]
      have hlt : a.2.length < b.2.length := Nat.lt_of_not_le hab
      rw [horder, List.filter_cons, ih hs.of_cons]
      by_cases h : a.2.length = c
      · have hb : ¬ (b.2.length = c) := by omega
        simp [h, hb, List.filter_cons]
      · simp [h, List.filter_cons]

theorem sortClustersDesc_stable (m : ClusterMap) (c : Nat) :
    (sortClustersDesc m).filter (fun p => p.2.length == c) =
      m.filter (fun p => p.2.length == c) := by
  induction m with
  | nil => rfl
  | cons a t ih =>
    show (List.orderedInsert clusterGe a (List.insertionSort clusterGe t)).filter _ = _
    rw [filter_orderedInsert_of_sorted c a _ (List.sorted_insertionSort clusterGe t)]
    simp only [sortClustersDesc] at ih
    by_cases h : a.2.length = c
    · simp [h, List.filter_cons, ih]
    · simp [h, List.filter_cons, ih]

theorem sortClustersDesc_sorted (m : ClusterMap) :
    List.Pairwise (fun a b : String × List String => b.2.length ≤ a.2.length)
      (sortClustersDesc m) :=
  List.sorted_insertionSort clusterGe m

theorem normIdx_of_nonneg (i : Int) (len : Nat) (h : 0 ≤ i) :
    normIdx i len = min i.toNat len := by
  simp [normIdx, Int.not_lt.mpr h]

/-- C2 (amended): merging is a no-op iff the raw cluster count does not
exceed `maxClusters`; and provided `maxClusters ≥ 1` and no cluster is keyed
`"merged-small-clusters"`, an overflowing map is sorted descending by member
count — a permutation, pairwise descending, stable on ties (first-seen order
preserved, expressed by filter invariance per member count) — the largest
`maxClusters - 1` clusters are kept untouched in sorted order, all remaining
member lists are concatenated in sorted order into the single bucket
`"merged-small-clusters"`, and the returned count is at most `maxClusters`. -/
theorem mergeSmallClusters_overflow_spec :
    (∀ (m : ClusterMap) (maxC : Int), (m.length : Int) ≤ maxC →
      mergeSmallClusters m maxC = m) ∧
    ∀ (m : ClusterMap) (maxC : Int),
      (clusterKeys m).Nodup →
      "merged-small-clusters" ∉ clusterKeys m →
      1 ≤ maxC → maxC < (m.length : Int) →
      (sortClustersDesc m).Perm m ∧
      List.Pairwise (fun a b : String × List String => b.2.length ≤ a.2.length)
        (sortClustersDesc m) ∧
      (∀ c : Nat, (sortClustersDesc m).filter (fun p => p.2.length == c) =
        m.filter (fun p => p.2.length == c)) ∧
      mergeSmallClusters m maxC =
        (if 0 < (((sortClustersDesc m).drop (maxC - 1).toNat).flatMap
            (fun p => p.2)).length then
          (sortClustersDesc m).take (maxC - 1).toNat ++
            [("merged-small-clusters",
              ((sortClustersDesc m).drop (maxC - 1).toNat).flatMap (fun p => p.2))]
        else (sortClustersDesc m).take (maxC - 1).toNat) ∧
      ((mergeSmallClusters m maxC).length : Int) ≤ maxC := by
  constructor
  · intro m maxC h
    simp [mergeSmallClusters, h]
  · intro m maxC hnd hmsc hone hgt
    have hgt' : ¬ (m.length : Int) ≤ maxC := by omega
    have hkperm : (clusterKeys (sortClustersDesc m)).Perm (clusterKeys m) :=
      (sortClustersDesc_perm m).map _
    have hndS : (clusterKeys (sortClustersDesc m)).Nodup := hkperm.nodup_iff.mpr hnd
    have hmscS : "merged-small-clusters" ∉ clusterKeys (sortClustersDesc m) :=
      fun hm => hmsc (hkperm.mem_iff.mp hm)
    have hkeystake : ∀ n : Nat, clusterKeys ((sortClustersDesc m).take n) =
        (clusterKeys (sortClustersDesc m)).take n := by
      intro n
      simp [clusterKeys, List.map_take]
    have hndT : (clusterKeys ((sortClustersDesc m).take
        (normIdx (maxC - 1) (sortClustersDesc m).length))).Nodup := by
      rw [hkeystake]
      exact hndS.sublist (List.take_sublist _ _)
    have hmscT : "merged-small-clusters" ∉ clusterKeys ((sortClustersDesc m).take
        (normIdx (maxC - 1) (sortClustersDesc m).length)) := by
      rw [hkeystake]
      intro hm
      exact hmscS (List.take_subset _ _ hm)
    have hnorm : normIdx (maxC - 1) (sortClustersDesc m).length =
        min (maxC - 1).toNat (sortClustersDesc m).length :=
      normIdx_of_nonneg _ _ (by omega)
    have hshape : mergeSmallClusters m maxC =
        (if 0 < (((sortClustersDesc m).drop (maxC - 1).toNat).flatMap
            (fun p => p.2)).length then
          (sortClustersDesc m).take (maxC - 1).toNat ++
            [("merged-small-clusters",
              ((sortClustersDesc m).drop (maxC - 1).toNat).flatMap (fun p => p.2))]
        else (sortClustersDesc m).take (maxC - 1).toNat) := by
      rw [mergeSmallClusters_eq_of_gt m maxC hgt' hndT hmscT]
      simp only [hnorm, take_min_length, drop_min_length]
    refine ⟨sortClustersDesc_perm m, sortClustersDesc_sorted m,
      fun c => sortClustersDesc_stable m c, hshape, ?_⟩
    have htn : ((maxC - 1).toNat : Int) = maxC - 1 := Int.toNat_of_nonneg (by omega)
    rw [hshape]
    split
    · have hlen : ((sortClustersDesc m).take (maxC - 1).toNat ++
          [("merged-small-clusters",
            ((sortClustersDesc m).drop (maxC - 1).toNat).flatMap (fun p => p.2))]).length =
          min (maxC - 1).toNat (sortClustersDesc m).length + 1 := by
        simp [List.length_append, List.length_take]
      rw [hlen]
      have := Nat.min_le_left (maxC - 1).toNat (sortClustersDesc m).length
      omega
    · have hlen : ((sortClustersDesc m).take (maxC - 1).toNat).length =
          min (maxC - 1).toNat (sortClustersDesc m).length := by
        simp [List.length_take]
      rw [hlen]
      have := Nat.min_le_left (maxC - 1).toNat (sortClustersDesc m).length
      omega

theorem mergeSmallClusters_overflow_spec_witness :
    mergeSmallClusters [("a", ["1", "2"]), ("b", ["3"]), ("c", ["4"])] 2 =
      [("a", ["1", "2"]), ("merged-small-clusters", ["3", "4"])] ∧
    ((mergeSmallClusters [("a", ["1", "2"]), ("b", ["3"]), ("c", ["4"])] 2).length : Int) ≤ 2 := by
  have h := mergeSmallClusters_overflow_spec.2 [("a", ["1", "2"]), ("b", ["3"]), ("c", ["4"])] 2
    (by decide) (by decide) (by decide) (by decide)
  refine ⟨?_, h.2.2.2.2⟩
  rw [h.2.2.2.1]
  decide

/-- C2 counterexample. First conjunct: with an input cluster keyed
`"merged-small-clusters"` that is the largest cluster (raw count 3 > 2), the
kept largest cluster is *not* left untouched — it disappears, overwritten by
the merged bucket. Second conjunct: with `maxClusters = 0` the raw count 2
exceeds `maxClusters` but the returned count (2) also exceeds it, because
`slice(0, -1)`/`slice(-1)` wrap around. -/
theorem mergeSmallClusters_overflow_counterexample :
    ((sortClustersDesc [("merged-small-clusters", ["u1", "u2"]), ("a", ["a1"]),
        ("b", ["b1"])]).take 1 = [("merged-small-clusters", ["u1", "u2"])] ∧
      ("merged-small-clusters", ["u1", "u2"]) ∉
        mergeSmallClusters [("merged-small-clusters", ["u1", "u2"]), ("a", ["a1"]),
          ("b", ["b1"])] 2) ∧
    ((0 : Int) < ([("a", ["a1"]), ("b", ["b1"])] : ClusterMap).length ∧
      ¬ ((mergeSmallClusters [("a", ["a1"]), ("b", ["b1"])] 0).length : Int) ≤ 0) := by
  decide

/-! ### Rate-limit policy and batch loop -/

theorem isPrefixOf_eq_true_iff (p : List Char) :
    ∀ s : List Char, p.isPrefixOf s = true ↔ ∃ t, s = p ++ t := by
  induction p with
  | nil => intro s; simp [List.isPrefixOf]
  | cons a p ih =>
    intro s
    cases s with
    | nil => simp [List.isPrefixOf]
    | cons b s =>
      simp only [List.isPrefixOf, Bool.and_eq_true, beq_iff_eq, ih, List.cons_append]
      constructor
      · rintro ⟨rfl, t, rfl⟩
        exact ⟨t, rfl⟩
      · rintro ⟨t, ht⟩
        injection ht with h1 h2
        exact ⟨h1.symm, t, h2⟩

theorem containsSub_iff (pat : List Char) :
    ∀ s : List Char, containsSub s pat = true ↔ ∃ pre post, s = pre ++ pat ++ post := by
  intro s
  induction s with
  | nil =>
    simp only [containsSub, isPrefixOf_eq_true_iff]
    constructor
    · rintro ⟨t, ht⟩
      exact ⟨[], t, by simpa using ht⟩
    · rintro ⟨pre, post, h⟩
      have h1 : pre ++ pat ++ post = [] := h.symm
      rw [List.append_eq_nil] at h1
      obtain ⟨h2, h3⟩ := h1
      rw [List.append_eq_nil] at h2
      exact ⟨[], by simp [h2.2, h3]⟩
  | cons c t ih =>
    simp only [containsSub, Bool.or_eq_true, isPrefixOf_eq_true_iff, ih]
    constructor
    · rintro (⟨t', ht'⟩ | ⟨pre, post, h⟩)
      · exact ⟨[], t', by simpa using ht'⟩
      · exact ⟨c :: pre, post, by simp [h]⟩
    · rintro ⟨pre, post, h⟩
      cases pre with
      | nil => exact Or.inl ⟨post, by simpa using h⟩
      | cons x xs =>
        right
        rw [List.cons_append, List.cons_append] at h
        injection h with h1 h2
        exact ⟨xs, post, by simpa using h2⟩

/-- The Boolean strict-domain test agrees with substring decomposition at the
`String` level. -/
theorem contains_strict_iff (name : String) :
    (strictDomains.any (fun d => containsSub name.data d.data) = true) ↔
      ∃ d ∈ strictDomains, ∃ pre post : String, name = pre ++ d ++ post := by
  rw [List.any_eq_true]
  constructor
  · rintro ⟨d, hd, hsub⟩
    obtain ⟨pre, post, h⟩ := (containsSub_iff d.data name.data).mp hsub
    exact ⟨d, hd, ⟨pre⟩, ⟨post⟩, String.ext (by simpa using h)⟩
  · rintro ⟨d, hd, pre, post, h⟩
    refine ⟨d, hd, (containsSub_iff d.data name.data).mpr ⟨pre.data, post.data, ?_⟩⟩
    rw [h]
    simp

/-- Joint characterization of the batch loop: the produced results are the
non-null fetch outcomes of the batches in batch order, and the event trace is
the batches in order with exactly one rate-limit delay between consecutive
batches. Stated against `chunkListAux` at the same fuel so that the two
recursions align; `clusterLoop`/`chunkList` instantiate the fuel with the url
count. -/
theorem clusterLoopAux_spec (env : Env) (opts : QueryOptions) (name : String) :
    ∀ (fuel : Nat) (urls : List String), urls.length ≤ fuel →
      clusterLoopAux env opts name fuel urls =
        (((chunkListAux (effConcurrency opts) fuel urls).map
            (fun b => (processBatch env opts name b).filterMap id)).flatten,
         expectedTrace (getClusterSpecificDelay name)
           (chunkListAux (effConcurrency opts) fuel urls)) := by
  intro fuel
  induction fuel with
  | zero =>
    intro urls h
    have hnil : urls = [] := List.eq_nil_of_length_eq_zero (Nat.le_zero.mp h)
    subst hnil
    rfl
  | succ f ih =>
    intro urls h
    cases urls with
    | nil => rfl
    | cons u us =>
      have hconc := effConcurrency_pos opts
      have hrest : ((u :: us).drop (effConcurrency opts)).length ≤ f := by
        simp only [List.length_drop, List.length_cons]
        simp only [List.length_cons] at h
        omega
      have hstep := ih ((u :: us).drop (effConcurrency opts)) hrest
      show (let conc := effConcurrency opts
            let batch := (u :: us).take conc
            let batchResults := processBatch env opts name batch
            let rest := (u :: us).drop conc
            let next := clusterLoopAux env opts name f rest
            (batchResults.filterMap id ++ next.1,
             ClusterEvent.batch batch ::
               (if rest.isEmpty then next.2
                else ClusterEvent.delay (getClusterSpecificDelay name) :: next.2))) = _
      simp only [hstep]
      cases hdrop : (u :: us).drop (effConcurrency opts) with
      | nil =>
        simp only [chunkListAux, hdrop, List.isEmpty_nil, if_pos]
        rfl
      | cons x xs =>
        have hx : x :: xs ≠ [] := List.cons_ne_nil x xs
        have hf : 1 ≤ f := by
          have := hrest
          rw [hdrop] at this
          simp only [List.length_cons] at this
          omega
        obtain ⟨g, hg⟩ : ∃ g, f = g + 1 := ⟨f - 1, by omega⟩
        subst hg
        simp only [chunkListAux, hdrop, List.isEmpty_cons, expectedTrace]
        rfl

theorem clusterLoop_spec (env : Env) (opts : QueryOptions) (name : String)
    (urls : List String) :
    clusterLoop env opts name urls =
      (((chunkList (effConcurrency opts) urls).map
          (fun b => (processBatch env opts name b).filterMap id)).flatten,
       expectedTrace (getClusterSpecificDelay name)
         (chunkList (effConcurrency opts) urls)) :=
  clusterLoopAux_spec env opts name urls.length urls (Nat.le_refl _)

/-- C8: `getClusterSpecificDelay` is a pure function of the cluster key:
5000 ms exactly when the key contains one of the configured strict origins as
a substring, 2000 ms otherwise; and within a cluster task the delay occurs
exactly between consecutive batches and never after the last batch. -/
theorem getClusterSpecificDelay_spec :
    (∀ name : String,
      ((∃ d ∈ strictDomains, ∃ pre post : String, name = pre ++ d ++ post) →
        getClusterSpecificDelay name = 5000) ∧
      ((¬ ∃ d ∈ strictDomains, ∃ pre post : String, name = pre ++ d ++ post) →
        getClusterSpecificDelay name = 2000)) ∧
    ∀ (env : Env) (opts : QueryOptions) (name : String) (urls : List String),
      (clusterLoop env opts name urls).2 =
        expectedTrace (getClusterSpecificDelay name)
          (chunkList (effConcurrency opts) urls) := by
  constructor
  · intro name
    constructor
    · intro hex
      have hb := (contains_strict_iff name).mpr hex
      simp [getClusterSpecificDelay, hb]
    · intro hnex
      have hb : strictDomains.any (fun d => containsSub name.data d.data) = false :=
        Bool.eq_false_iff.mpr (fun h => hnex ((contains_strict_iff name).mp h))
      simp [getClusterSpecificDelay, hb]
  · intro env opts name urls
    exact congrArg Prod.snd (clusterLoop_spec env opts name urls)

/-- A page outcome in which every browser interaction succeeds. -/
def poOk : PageOutcome :=
  { newPageOk := true, setUserAgentOk := true, navOk := true, selOk := true,
    titleResult := some ("T"), contentResult := some ("C"), htmlResult := some ("H"),
    screenshotOk := true, timestamp := "ts" }

/-- A fully benign environment: every url parses to itself, four CPUs, every
launch succeeds, every page interaction succeeds, no API key configured. -/
def envBase : Env :=
  { host := fun u => some u, cpuCount := 4, launchOk := fun _ => true,
    page := fun _ _ => poOk, openRouter := { apiKey := "", model := "m" },
    api := fun _ _ _ => none }

def optsW8 : QueryOptions :=
  { depth := none, timeout := none, concurrency := some 2, clusterBy := none,
    maxClusters := none, verbose := false }

theorem getClusterSpecificDelay_spec_witness :
    getClusterSpecificDelay ("en.wikipedia.org") = 5000 ∧
    getClusterSpecificDelay ("example.com") = 2000 ∧
    (clusterLoop envBase optsW8 ("en.wikipedia.org") ["a", "b", "c"]).2 =
      expectedTrace (getClusterSpecificDelay ("en.wikipedia.org"))
        (chunkList (effConcurrency optsW8) ["a", "b", "c"]) := by
  refine ⟨(getClusterSpecificDelay_spec.1 ("en.wikipedia.org")).1
      ⟨"wikipedia.org", by decide, "en.", "", by decide⟩,
    (getClusterSpecificDelay_spec.1 ("example.com")).2 ?_,
    getClusterSpecificDelay_spec.2 envBase optsW8 ("en.wikipedia.org") ["a", "b", "c"]⟩
  intro hex
  have hb := (contains_strict_iff ("example.com")).mpr hex
  exact absurd hb (by decide)

/-- C9: within a cluster task the produced results are the per-batch outcomes
concatenated in batch order (batch N+1's awaited results follow batch N's),
and inside one batch `Promise.all` keeps position `i` of the outcome array
equal to the fetch of the url at position `i` of the batch. -/
theorem clusterLoop_batch_order :
    (∀ (env : Env) (opts : QueryOptions) (name : String) (urls : List String),
      (clusterLoop env opts name urls).1 =
        ((chunkList (effConcurrency opts) urls).map
          (fun b => (processBatch env opts name b).filterMap id)).flatten) ∧
    ∀ (env : Env) (opts : QueryOptions) (name : String) (b : List String) (i : Nat),
      (processBatch env opts name b)[i]? = (b[i]?).map (fetchOne env opts name) := by
  constructor
  · intro env opts name urls
    exact congrArg Prod.fst (clusterLoop_spec env opts name urls)
  · intro env opts name b i
    simp [processBatch, List.getElem?_map]

/-! ### Per-page failure handling -/

/-- C4 (amended): whenever page creation and user-agent setup succeed and the
title step resolves (the title call succeeds, or the url's hostname is
parseable for the fallback), `crawlWebsite` returns a result for the url no
matter how navigation, the selector wait, extraction, the HTML snapshot, the
screenshot or markdown formatting fail, with the fallback field values; and a
batch entry depends only on its own url, so siblings are unaffected. -/
theorem crawlWebsite_soft_failures :
    (∀ (env : Env) (opts : QueryOptions) (url t : String),
      (pageOut env opts url).newPageOk = true →
      (pageOut env opts url).setUserAgentOk = true →
      titleOf env opts url = some t →
      crawlWebsite env opts url =
        some { url := url, title := t, content := contentOf env opts url,
               html := htmlOf env opts url, markdown := markdownOf env opts url t,
               timestamp := (pageOut env opts url).timestamp, cluster := none }) ∧
    ∀ (env : Env) (opts : QueryOptions) (name : String) (b₁ b₂ : List String) (i : Nat),
      b₁[i]? = b₂[i]? →
      (processBatch env opts name b₁)[i]? = (processBatch env opts name b₂)[i]? := by
  constructor
  · intro env opts url t h1 h2 h3
    simp [crawlWebsite, crawlWebsiteFull, h1, h2, h3]
  · intro env opts name b₁ b₂ i h
    simp [processBatch, List.getElem?_map, h]

/-- A page outcome in which every per-page operation fails softly. -/
def poSoft : PageOutcome :=
  { newPageOk := true, setUserAgentOk := true, navOk := false, selOk := false,
    titleResult := none, contentResult := none, htmlResult := none,
    screenshotOk := false, timestamp := "ts" }

/-- Every page interaction fails softly, but urls still parse. -/
def envSoft : Env :=
  { host := fun u => some u, cpuCount := 4, launchOk := fun _ => true,
    page := fun _ _ => poSoft, openRouter := { apiKey := "", model := "m" },
    api := fun _ _ _ => none }

theorem crawlWebsite_soft_failures_witness :
    crawlWebsite envSoft optsW8 ("u") =
      some { url := "u", title := "u", content := contentOf envSoft optsW8 ("u"),
             html := htmlOf envSoft optsW8 ("u"),
             markdown := markdownOf envSoft optsW8 ("u") ("u"),
             timestamp := "ts", cluster := none } ∧
    (processBatch envBase optsW8 ("n") ["a", "x"])[0]? =
      (processBatch envBase optsW8 ("n") ["a", "y"])[0]? :=
  ⟨crawlWebsite_soft_failures.1 envSoft optsW8 ("u") ("u") rfl rfl rfl,
   crawlWebsite_soft_failures.2 envBase optsW8 ("n") ["a", "x"] ["a", "y"] 0 rfl⟩

/-- The url `"bad"` does not parse and its page's title call throws; every
other url behaves fine. -/
def envBad : Env :=
  { host := fun u => if u = "bad" then none else some u, cpuCount := 4,
    launchOk := fun _ => true,
    page := fun u _ => if u = "bad" then poSoft else poOk,
    openRouter := { apiKey := "", model := "m" }, api := fun _ _ _ => none }

/-- C4 counterexample: a title-retrieval failure (a listed per-page soft
failure) on an unparseable url makes the title fallback `new URL(url).hostname`
throw, so the fetch returns null and the url is omitted from the batch's
results (the sibling url still yields its result). -/
theorem crawlWebsite_soft_failure_counterexample :
    (pageOut envBad optsW8 ("bad")).newPageOk = true ∧
    (pageOut envBad optsW8 ("bad")).titleResult = none ∧
    crawlWebsite envBad optsW8 ("bad") = none ∧
    (clusterLoop envBad optsW8 ("invalid-urls") ["bad", "good"]).1.length = 1 := by
  decide

/-- C5: the exposed crawl operation is total — for every environment (any
combination of collaborator failures), input list and options, it returns a
plain list: a rejection inside the clustering pipeline is caught and becomes
`[]`, and a resolved pipeline value is returned unchanged. -/
theorem crawlWebsites_total :
    ∀ (env : Env) (sr : List SearchResult) (opts : QueryOptions),
      (crawlWithClustering env (sr.take (min sr.length (effDepth opts))) opts
          (defaultClusterConfig env) = Except.error () ∧
        crawlWebsites env sr opts = []) ∨
      ∃ rs, crawlWithClustering env (sr.take (min sr.length (effDepth opts))) opts
          (defaultClusterConfig env) = Except.ok rs ∧
        crawlWebsites env sr opts = rs := by
  intro env sr opts
  cases h : crawlWithClustering env (sr.take (min sr.length (effDepth opts))) opts
      (defaultClusterConfig env) with
  | error e =>
    left
    cases e
    exact ⟨rfl, by simp [crawlWebsites, h]⟩
  | ok rs =>
    right
    exact ⟨rs, rfl, by simp [crawlWebsites, h]⟩

/-- C6 (amended): `crawlWebsite` never closes the page handle it creates —
the `finally` block of the source is empty (`page.close()` is commented out).
Every call closes zero pages and opens exactly one iff page creation
succeeded, so each fetch leaves its page open in the shared browser session. -/
theorem crawlWebsite_page_never_closed :
    ∀ (env : Env) (opts : QueryOptions) (url : String),
      (crawlWebsiteFull env opts url).2.2 = 0 ∧
      ((crawlWebsiteFull env opts url).2.1 =
        if (pageOut env opts url).newPageOk then 1 else 0) := by
  intro env opts url
  by_cases h1 : (pageOut env opts url).newPageOk = false
  · constructor <;> simp [crawlWebsiteFull, h1]
  · have h1' : (pageOut env opts url).newPageOk = true := by simpa using h1
    by_cases h2 : (pageOut env opts url).setUserAgentOk = false
    · constructor <;> simp [crawlWebsiteFull, h1, h2, h1']
    · cases h3 : titleOf env opts url <;>
        constructor <;> simp [crawlWebsiteFull, h1, h2, h3, h1']

/-- C6 counterexample: a successful fetch opens one page and closes none, so
the set of open page handles after the call differs from the set before. -/
theorem crawlWebsite_page_lifecycle_counterexample :
    (crawlWebsiteFull envBase optsW8 ("u")).2.1 = 1 ∧
    (crawlWebsiteFull envBase optsW8 ("u")).2.2 = 0 ∧
    (crawlWebsiteFull envBase optsW8 ("u")).2.2 ≠
      (crawlWebsiteFull envBase optsW8 ("u")).2.1 := by decide

/-- Inversion: a fetch that returns a result returns exactly the record built
from the step helpers. -/
theorem crawlWebsite_some_inv (env : Env) (opts : QueryOptions) (url : String)
    (r : CrawlResult) (hr : crawlWebsite env opts url = some r) :
    ∃ t, titleOf env opts url = some t ∧
      r = { url := url, title := t, content := contentOf env opts url,
            html := htmlOf env opts url, markdown := markdownOf env opts url t,
            timestamp := (pageOut env opts url).timestamp, cluster := none } := by
  simp only [crawlWebsite, crawlWebsiteFull] at hr
  by_cases h1 : (pageOut env opts url).newPageOk = false
  · simp [h1] at hr
  · by_cases h2 : (pageOut env opts url).setUserAgentOk = false
    · simp [h1, h2] at hr
    · cases h3 : titleOf env opts url with
      | none => simp [h1, h2, h3] at hr
      | some t =>
        simp only [h1, h2, h3, if_false] at hr
        refine ⟨t, rfl, ?_⟩
        simp at hr
        exact hr.symm

/-- C7: with an empty API key the markdown collaborator always errors, and
whenever a fetch produces a result while the collaborator errored on the
fetch's content, title and url, the result's markdown field is exactly the
deterministic fallback template of the catch block. -/
theorem fallback_markdown_spec :
    (∀ (cfg : OpenRouterConfig) (api : String → String → String → Option String)
        (content title url : String),
      cfg.apiKey = "" → generateCleanMarkdown cfg api content title url = Except.error ()) ∧
    ∀ (env : Env) (opts : QueryOptions) (url : String) (r : CrawlResult),
      crawlWebsite env opts url = some r →
      generateCleanMarkdown env.openRouter env.api r.content r.title url = Except.error () →
      r.markdown = "# " ++ r.title ++ "\n\n" ++ r.content ++ "\n\n[Source](" ++ url ++ ")" := by
  constructor
  · intro cfg api content title url h
    simp [generateCleanMarkdown, h]
  · intro env opts url r hr herr
    obtain ⟨t, h3, rfl⟩ := crawlWebsite_some_inv env opts url r hr
    have herr' : generateCleanMarkdown env.openRouter env.api (contentOf env opts url) t url =
        Except.error () := herr
    show markdownOf env opts url t = _
    simp [markdownOf, herr']

theorem fallback_markdown_spec_witness :
    crawlWebsite envBase optsW8 ("u") =
      some { url := "u", title := "T", content := "C", html := "H",
             markdown := "# T\n\nC\n\n[Source](u)", timestamp := "ts",
             cluster := none } ∧
    ({ url := "u", title := "T", content := "C", html := "H",
       markdown := "# T\n\nC\n\n[Source](u)", timestamp := "ts",
       cluster := none } : CrawlResult).markdown =
      "# " ++ "T" ++ "\n\n" ++ "C" ++ "\n\n[Source](" ++ "u" ++ ")" := by
  refine ⟨by decide, ?_⟩
  exact fallback_markdown_spec.2 envBase optsW8 ("u") _ (by decide)
    (fallback_markdown_spec.1 envBase.openRouter envBase.api ("C") ("T") ("u") rfl)

/-! ### Cluster failure propagation -/

theorem sequenceExcept_error_of_mem {α : Type} :
    ∀ l : List (Except Unit α), Except.error () ∈ l →
      sequenceExcept l = Except.error ()
  | x :: t, h => by
    rcases List.mem_cons.mp h with h1 | h1
    · simp [sequenceExcept, ← h1]
    · cases x with
      | error e => cases e; simp [sequenceExcept]
      | ok a => simp [sequenceExcept, sequenceExcept_error_of_mem t h1]

/-- C3 (amended): a browser-session creation failure for any one cluster task
rejects that task's promise, which makes the uncaught `Promise.all` of
`crawlWithClustering` reject, and the catch in `crawlWebsites` turns the whole
run into the empty list — the sibling clusters' results are discarded too. -/
theorem clusterFailure_empties_run (env : Env) (sr : List SearchResult)
    (opts : QueryOptions) (p : String × List String)
    (hp : p ∈ groupUrlsByClusters env.host (sr.take (min sr.length (effDepth opts)))
      (defaultClusterConfig env))
    (hl : env.launchOk p.1 = false) :
    crawlWebsites env sr opts = [] := by
  have htask : clusterTask env opts p = Except.error () := by
    simp [clusterTask, hl]
  have hmem : Except.error () ∈
      (groupUrlsByClusters env.host (sr.take (min sr.length (effDepth opts)))
        (defaultClusterConfig env)).map (clusterTask env opts) := by
    have := List.mem_map_of_mem (clusterTask env opts) hp
    rwa [htask] at this
  have hseq := sequenceExcept_error_of_mem _ hmem
  simp [crawlWebsites, crawlWithClustering, hseq]

/-- Url `u` is clustered under its first character; session creation fails
for cluster `"a"` only; every page interaction would succeed. -/
def envC3 : Env :=
  { host := fun u => some (u.take 1), cpuCount := 4,
    launchOk := fun s => s != "a",
    page := fun _ _ => poOk, openRouter := { apiKey := "", model := "m" },
    api := fun _ _ _ => none }

def srC3 : List SearchResult := [⟨"a1", "", ""⟩, ⟨"b1", "", ""⟩]

theorem clusterFailure_empties_run_witness :
    crawlWebsites envC3 srC3 optsW8 = [] :=
  clusterFailure_empties_run envC3 srC3 optsW8 ("a", ["a1"]) (by decide) (by decide)

/-- C3 counterexample: with clusters `"a"` and `"b"`, a session-creation
failure for `"a"` alone empties the whole run, even though the healthy
cluster task for `"b"` resolves with one result. -/
theorem cluster_failure_isolation_counterexample :
    (match clusterTask envC3 optsW8 ("b", ["b1"]) with
      | Except.ok l => l.length
      | Except.error _ => 0) = 1 ∧
    crawlWebsites envC3 srC3 optsW8 = [] := by decide

/-! ### Clustering options are ignored -/

theorem crawlWebsiteFull_congr (env : Env) {o₁ o₂ : QueryOptions}
    (ht : effTimeout o₁ = effTimeout o₂) (url : String) :
    crawlWebsiteFull env o₁ url = crawlWebsiteFull env o₂ url := by
  simp only [crawlWebsiteFull, titleOf, contentOf, htmlOf, markdownOf, pageOut, ht]

theorem clusterLoopAux_congr (env : Env) {o₁ o₂ : QueryOptions}
    (ht : effTimeout o₁ = effTimeout o₂) (hc : effConcurrency o₁ = effConcurrency o₂)
    (name : String) :
    ∀ (fuel : Nat) (urls : List String),
      clusterLoopAux env o₁ name fuel urls = clusterLoopAux env o₂ name fuel urls := by
  intro fuel
  induction fuel with
  | zero => intro urls; cases urls <;> rfl
  | succ f ih =>
    intro urls
    cases urls with
    | nil => rfl
    | cons u us =>
      have hf : fetchOne env o₁ name = fetchOne env o₂ name := by
        funext url
        simp only [fetchOne, crawlWebsite, crawlWebsiteFull_congr env ht url]
      simp only [clusterLoopAux, processBatch, hc, hf, ih]

/-- C10: the partitioning configuration of `crawlWebsites` is hardcoded
(`clusterBy: 'domain'`, `maxClusters: min(os.cpus().length, 4)`); two calls
whose options agree on depth, timeout, concurrency and verbose — differing
arbitrarily in the advertised `clusterBy` and `maxClusters` options — return
identical results in every environment. -/
theorem crawlWebsites_cluster_options_ignored :
    ∀ (env : Env) (sr : List SearchResult) (o₁ o₂ : QueryOptions),
      o₁.depth = o₂.depth → o₁.timeout = o₂.timeout →
      o₁.concurrency = o₂.concurrency → o₁.verbose = o₂.verbose →
      crawlWebsites env sr o₁ = crawlWebsites env sr o₂ := by
  intro env sr o₁ o₂ hd ht hc _hv
  have ht' : effTimeout o₁ = effTimeout o₂ := by simp [effTimeout, ht]
  have hc' : effConcurrency o₁ = effConcurrency o₂ := by simp [effConcurrency, hc]
  have hd' : effDepth o₁ = effDepth o₂ := by simp [effDepth, hd]
  have htask : clusterTask env o₁ = clusterTask env o₂ := by
    funext p
    simp only [clusterTask, clusterLoop, clusterLoopAux_congr env ht' hc' p.1]
  simp only [crawlWebsites, crawlWithClustering, hd', htask]

def optsA : QueryOptions :=
  { depth := none, timeout := none, concurrency := some 2,
    clusterBy := some ("domain"), maxClusters := some 4, verbose := false }

def optsB : QueryOptions :=
  { depth := none, timeout := none, concurrency := some 2,
    clusterBy := some ("tld"), maxClusters := some 1, verbose := false }

theorem crawlWebsites_cluster_options_ignored_witness :
    crawlWebsites envBase [⟨"a", "", ""⟩, ⟨"b", "", ""⟩] optsA =
      crawlWebsites envBase [⟨"a", "", ""⟩, ⟨"b", "", ""⟩] optsB :=
  crawlWebsites_cluster_options_ignored envBase [⟨"a", "", ""⟩, ⟨"b", "", ""⟩]
    optsA optsB rfl rfl rfl rfl
